import Mathlib

/-!
# SnapChallan AI processing service — verification development

Shallow embedding of the analysis pipeline of `ai/main.py`
(class `AIProcessor`): license-plate text filtering and canonicalization,
coordinate remapping, image-quality scoring, and the violation rule
engine (helmet / triple-riding detectors plus no-op extension points).

Modelling conventions:
* Python floats are modelled as exact rationals (`ℚ`); the constant `0.3`
  is modelled as the exact rational `3/10` (checked: `int(r*0.3)` agrees
  with `(3*r)/10` for all realistic row counts).
* `numpy` slicing `a[l:r]` (step 1) is modelled by `pySlice`, including
  Python's negative-index and clipping semantics; `int(...)` truncation
  toward zero is `pyInt`.
* External capabilities (the YOLO detector, easyocr, and the cv2
  colour-space conversions BGR→HSV / BGR→gray) are opaque function
  parameters, exactly as the spec treats them (black-box capabilities).
* `cv2.inRange` masks, mask union, coverage ratios, bbox centres and the
  Euclidean proximity test are translated from the source; the source
  compares `sqrt(dx²+dy²) ≤ t`, which for `t ≥ 0` is equivalent to the
  rational comparison `dx²+dy² ≤ t²` used here.
* A fallible violation detector returns `Except String Bool`; the rule
  engine `detect_violations` catches the error case (the `try/except`
  of the source) and treats it as "not detected".
-/

namespace SnapChallan

/-- A three-channel 8-bit pixel.  Before colour conversion the channels
are read as B,G,R; after the (external) conversion they are read as
H,S,V. -/
structure Pix where
  c1 : Nat
  c2 : Nat
  c3 : Nat
deriving DecidableEq, Repr

/-- An image: a list of rows of pixels (row-major, as a numpy array). -/
abbrev Img := List (List Pix)

/-- A detection bounding box `[x1, y1, x2, y2]` in pixel coordinates. -/
structure Bbox where
  x1 : ℚ
  y1 : ℚ
  x2 : ℚ
  y2 : ℚ
deriving DecidableEq, Repr

/-- `DetectionResult` dataclass of the source. -/
structure DetectionResult where
  class_name : String
  confidence : ℚ
  bbox : Bbox
deriving DecidableEq, Repr

/-- `LicensePlateResult` dataclass of the source. -/
structure LicensePlateResult where
  text : String
  confidence : ℚ
  bbox : List ℚ
deriving DecidableEq, Repr

/-- Python `int(...)` applied to a float: truncation toward zero. -/
def pyInt (q : ℚ) : Int :=
  if 0 ≤ q then ⌊q⌋ else -⌊-q⌋

/-- Resolve one slice endpoint the way Python/numpy does: a negative
index counts from the end (clamped at 0), a non-negative one is clamped
to the length. -/
def sliceIdx (len : Nat) (i : Int) : Nat :=
  if i < 0 then ((len : Int) + i).toNat else min i.toNat len

/-- Python slicing `l[a:b]` with step 1 (numpy rows/columns behave the
same way). -/
def pySlice (l : List α) (a b : Int) : List α :=
  (l.take (sliceIdx l.length b)).drop (sliceIdx l.length a)

/-! ## License-plate text filtering (`is_license_plate_text`) -/

/-- Character class `[A-Z]`. -/
def isUpperAlpha (c : Char) : Bool := 'A' ≤ c && c ≤ 'Z'

/-- Character class `[0-9]` (`\d` on the cleaned text). -/
def isDigitCh (c : Char) : Bool := '0' ≤ c && c ≤ '9'

/-- `text.upper()` followed by `re.sub(r'[^A-Z0-9]', '', ·)`:
uppercase, then strip everything that is not an uppercase letter or a
digit. -/
def cleanText (text : String) : String :=
  ⟨(text.data.map Char.toUpper).filter fun c => isUpperAlpha c || isDigitCh c⟩

/-- One regex segment: a character class with a repetition range. -/
abbrev Seg := (Char → Bool) × Nat × Nat

/-- Anchored matching of a sequence of `{lo,hi}` character-class
segments against the whole string, with full backtracking (a full
`re.match` against `^…$` succeeds iff some split succeeds). -/
def matchSegs : List Seg → List Char → Bool
  | [], cs => cs.isEmpty
  | (cls, lo, hi) :: rest, cs =>
    (List.range (hi + 1)).any fun k =>
      lo ≤ k && k ≤ cs.length && (cs.take k).all cls && matchSegs rest (cs.drop k)

/-- `^[A-Z]{2}\d{2}[A-Z]{1,2}\d{4}$` — standard format XX00XX0000. -/
def plate_pattern_standard : List Seg :=
  [(isUpperAlpha, 2, 2), (isDigitCh, 2, 2), (isUpperAlpha, 1, 2), (isDigitCh, 4, 4)]

/-- `^[A-Z]{2}\d{2}[A-Z]{1,2}\d{1,4}$` — trailing digits may be short. -/
def plate_pattern_short : List Seg :=
  [(isUpperAlpha, 2, 2), (isDigitCh, 2, 2), (isUpperAlpha, 1, 2), (isDigitCh, 1, 4)]

/-- `^[A-Z]{1,2}\d{1,4}[A-Z]{0,2}\d{0,4}$` — flexible pattern. -/
def plate_pattern_flexible : List Seg :=
  [(isUpperAlpha, 1, 2), (isDigitCh, 1, 4), (isUpperAlpha, 0, 2), (isDigitCh, 0, 4)]

/-- `AIProcessor.is_license_plate_text`: clean the text, then accept iff
some pattern matches and the cleaned length is at least 6. -/
def is_license_plate_text (text : String) : Bool :=
  let t := cleanText text
  ([plate_pattern_standard, plate_pattern_short, plate_pattern_flexible].any
    fun p => matchSegs p t.data) && 6 ≤ t.length

/-- `AIProcessor.clean_license_plate_text`: clean, and when at least 10
characters remain, regroup as `c[:2] + c[2:4] + c[4:6] + c[6:10]`. -/
def clean_license_plate_text (text : String) : String :=
  let cleaned := cleanText text
  if 10 ≤ cleaned.length then
    ⟨cleaned.data.take 2 ++ ((cleaned.data.drop 2).take 2 ++
      ((cleaned.data.drop 4).take 2 ++ (cleaned.data.drop 6).take 4))⟩
  else cleaned

/-! ## Coordinate remapping (`relative_to_absolute_bbox`) -/

/-- Python `min(list)` (raises on an empty list, hence `Option`). -/
def listMin? : List ℚ → Option ℚ
  | [] => none
  | x :: xs => some (xs.foldl min x)

/-- Python `max(list)`. -/
def listMax? : List ℚ → Option ℚ
  | [] => none
  | x :: xs => some (xs.foldl max x)

/-- `AIProcessor.relative_to_absolute_bbox`: min/max of the
quadrilateral's coordinates, shifted by the vehicle crop's top-left
corner.  `none` models the `ValueError` Python's `min` raises on an
empty point list. -/
def relative_to_absolute_bbox (relative_bbox : List (ℚ × ℚ))
    (offset_x offset_y : ℚ) : Option (List ℚ) :=
  let x_coords := relative_bbox.map Prod.fst
  let y_coords := relative_bbox.map Prod.snd
  match listMin? x_coords, listMin? y_coords, listMax? x_coords, listMax? y_coords with
  | some mx, some my, some Mx, some My =>
      some [mx + offset_x, my + offset_y, Mx + offset_x, My + offset_y]
  | _, _, _, _ => none

/-! ## Geometric helpers -/

/-- `AIProcessor.get_bbox_center`: midpoint of the two bbox corners. -/
def get_bbox_center (b : Bbox) : ℚ × ℚ :=
  ((b.x1 + b.x2) / 2, (b.y1 + b.y2) / 2)

/-- Squared Euclidean distance.  The source compares
`sqrt(dx²+dy²) ≤ t`; for `t ≥ 0` this is `dx²+dy² ≤ t²`. -/
def distSq (p q : ℚ × ℚ) : ℚ :=
  (p.1 - q.1) ^ 2 + (p.2 - q.2) ^ 2

/-- `AIProcessor.find_nearby_objects`: keep the objects whose bbox
centre is within `threshold` pixels of the reference object's centre. -/
def find_nearby_objects (reference_obj : DetectionResult)
    (objects : List DetectionResult) (threshold : ℚ) : List DetectionResult :=
  objects.filter fun obj =>
    distSq (get_bbox_center reference_obj.bbox) (get_bbox_center obj.bbox) ≤ threshold ^ 2

/-- Substring containment on character lists (Python `in` on strings). -/
def isSubstr (needle hay : List Char) : Bool :=
  (List.range (hay.length + 1)).any fun i =>
    (hay.drop i).take needle.length == needle

/-- `motorcycle in v.class_name.lower()` — the motorcycle filter used by
both the helmet and the triple-riding detectors. -/
def isMotorcycleClass (v : DetectionResult) : Bool :=
  isSubstr "motorcycle".data v.class_name.toLower.data

/-! ## Image cropping and the helmet heuristic -/

/-- Crop `image[y1:y2, x1:x2]` (numpy slicing on both axes). -/
def cropRegion (img : Img) (y1 y2 x1 x2 : Int) : Img :=
  (pySlice img y1 y2).map fun row => pySlice row x1 x2

/-- The `person_region` crop of `detect_helmet_violation`: the image
restricted to the person's bbox, coordinates truncated by `int(...)`. -/
def person_region (img : Img) (b : Bbox) : Img :=
  cropRegion img (pyInt b.y1) (pyInt b.y2) (pyInt b.x1) (pyInt b.x2)

/-- The `head_region`: top 30 % of the person crop's rows
(`person_region[:int(rows * 0.3)]`, with `0.3` modelled exactly). -/
def head_region (img : Img) (b : Bbox) : Img :=
  let pr := person_region img b
  pr.take (3 * pr.length / 10)

/-- `cv2.inRange` on a single pixel: every channel between the bounds. -/
def pixInRange (lo hi p : Pix) : Bool :=
  lo.c1 ≤ p.c1 && p.c1 ≤ hi.c1 && lo.c2 ≤ p.c2 && p.c2 ≤ hi.c2 &&
    lo.c3 ≤ p.c3 && p.c3 ≤ hi.c3

/-- The union of the five helmet colour masks of
`analyze_helmet_presence` (black, white, red, blue, yellow) on one HSV
pixel. -/
def helmet_mask (p : Pix) : Bool :=
  pixInRange ⟨0, 0, 0⟩ ⟨180, 255, 50⟩ p ||
  pixInRange ⟨0, 0, 200⟩ ⟨180, 30, 255⟩ p ||
  pixInRange ⟨0, 50, 50⟩ ⟨10, 255, 255⟩ p ||
  pixInRange ⟨100, 50, 50⟩ ⟨130, 255, 255⟩ p ||
  pixInRange ⟨25, 50, 50⟩ ⟨35, 255, 255⟩ p

/-- `helmet_coverage = np.sum(combined_mask > 0) / combined_mask.size`,
after converting the region to HSV with the external conversion `cvt`.
(On an empty region this is `0/0 = 0` under rational division.) -/
def helmet_coverage (cvt : Pix → Pix) (region : Img) : ℚ :=
  let pix := region.flatten
  ((pix.countP fun p => helmet_mask (cvt p) : Nat) : ℚ) / (pix.length : ℚ)

/-- `AIProcessor.analyze_helmet_presence`: guard on an empty region,
then HSV-convert, build the mask union, and report a helmet when the
coverage exceeds 0.3. -/
def analyze_helmet_presence (cvt : Pix → Pix) (head_reg : Img) : Bool :=
  if head_reg.flatten.length = 0 then false
  else helmet_coverage cvt head_reg > 3 / 10

/-! ## Violation detectors -/

/-- `AIProcessor.detect_helmet_violation`: for each motorcycle-class
vehicle, for each person within 50 px of its centre, flag unless the
helmet test passes on the person's head region. -/
def detect_helmet_violation (cvt : Pix → Pix) (image : Img)
    (vehicles persons _signs : List DetectionResult) : Bool :=
  let motorcycles := vehicles.filter isMotorcycleClass
  motorcycles.any fun motorcycle =>
    (find_nearby_objects motorcycle persons 50).any fun person =>
      !analyze_helmet_presence cvt (head_region image person.bbox)

/-- `AIProcessor.detect_triple_riding`: flag when some motorcycle has
more than 2 persons within 30 px of its centre. -/
def detect_triple_riding (_image : Img)
    (vehicles persons _signs : List DetectionResult) : Bool :=
  let motorcycles := vehicles.filter isMotorcycleClass
  motorcycles.any fun motorcycle =>
    2 < (find_nearby_objects motorcycle persons 30).length

/-- `detect_wrong_way_driving` — documented no-op extension point. -/
def detect_wrong_way_driving (_image : Img)
    (_vehicles _persons _signs : List DetectionResult) : Bool := false

/-- `detect_mobile_usage` — documented no-op extension point. -/
def detect_mobile_usage (_image : Img)
    (_vehicles _persons _signs : List DetectionResult) : Bool := false

/-- `detect_seatbelt_violation` — documented no-op extension point. -/
def detect_seatbelt_violation (_image : Img)
    (_vehicles _persons _signs : List DetectionResult) : Bool := false

/-- `detect_signal_jump` — documented no-op extension point. -/
def detect_signal_jump (_image : Img)
    (_vehicles _persons _signs : List DetectionResult) : Bool := false

/-- `detect_speeding` — documented no-op extension point. -/
def detect_speeding (_image : Img)
    (_vehicles _persons _signs : List DetectionResult) : Bool := false

/-- `detect_wrong_parking` — documented no-op extension point. -/
def detect_wrong_parking (_image : Img)
    (_vehicles _persons _signs : List DetectionResult) : Bool := false

/-! ## The rule engine -/

/-- A registered detector.  Python detectors may raise; a raising run is
the `Except.error` case. -/
abbrev Detector :=
  Img → List DetectionResult → List DetectionResult → List DetectionResult →
    Except String Bool

/-- `AIProcessor.violation_patterns`, in the source's insertion order.
The two implemented detectors are total in this model, so they are
wrapped as always-`ok`; the engine below still handles the error case
of arbitrary detectors. -/
def violation_patterns (cvt : Pix → Pix) : List (String × Detector) :=
  [("wrong_way", fun i v p s => .ok (detect_wrong_way_driving i v p s)),
   ("helmet_violation", fun i v p s => .ok (detect_helmet_violation cvt i v p s)),
   ("triple_riding", fun i v p s => .ok (detect_triple_riding i v p s)),
   ("mobile_usage", fun i v p s => .ok (detect_mobile_usage i v p s)),
   ("seatbelt_violation", fun i v p s => .ok (detect_seatbelt_violation i v p s)),
   ("signal_jump", fun i v p s => .ok (detect_signal_jump i v p s)),
   ("speeding", fun i v p s => .ok (detect_speeding i v p s)),
   ("wrong_parking", fun i v p s => .ok (detect_wrong_parking i v p s))]

/-- `AIProcessor.detect_violations`: run every registered detector; a
kind is appended when its detector returns `True`; a raising detector
is caught (`try/except`) and contributes nothing.  The function itself
is total — it never propagates a detector's exception. -/
def detect_violations (patterns : List (String × Detector)) (image : Img)
    (vehicles persons signs : List DetectionResult) : List String :=
  patterns.filterMap fun kv =>
    match kv.2 image vehicles persons signs with
    | .ok true => some kv.1
    | _ => none

/-! ## Image quality (`calculate_image_quality`) -/

/-- A decoded grayscale image (the external `cv2.cvtColor(·, BGR2GRAY)`
output): dimensions plus a pixel-intensity function. -/
structure GrayImg where
  height : Nat
  width : Nat
  px : Nat → Nat → ℚ

/-- All pixel intensities of the image, row-major. -/
def gridPixels (g : GrayImg) : List ℚ :=
  (List.range g.height).flatMap fun i => (List.range g.width).map fun j => g.px i j

/-- `np.mean` of a list of values (population mean). -/
def listMean (l : List ℚ) : ℚ := l.sum / (l.length : ℚ)

/-- `np.var` / the square of `np.std`: population variance. -/
def listVar (l : List ℚ) : ℚ :=
  ((l.map fun x => (x - listMean l) ^ 2).sum) / (l.length : ℚ)

/-- cv2's `BORDER_REFLECT_101` index map, total on all of `ℤ` (cv2 only
evaluates it at `-1 … n`, where it reflects around the edge pixels). -/
def reflect101 (n : Nat) (i : Int) : Nat :=
  if n ≤ 1 then 0
  else (if i < 0 then -i else if (n : Int) ≤ i then 2 * ((n : Int) - 1) - i else i).toNat

/-- `cv2.Laplacian(gray, CV_64F)` response at one pixel: the 3×3
aperture `[[0,1,0],[1,-4,1],[0,1,0]]` with reflected borders. -/
def lapAt (g : GrayImg) (i j : Nat) : ℚ :=
  g.px (reflect101 g.height ((i : Int) - 1)) j +
  g.px (reflect101 g.height ((i : Int) + 1)) j +
  g.px i (reflect101 g.width ((j : Int) - 1)) +
  g.px i (reflect101 g.width ((j : Int) + 1)) -
  4 * g.px i j

/-- The full Laplacian response image, row-major. -/
def lapResponses (g : GrayImg) : List ℚ :=
  (List.range g.height).flatMap fun i => (List.range g.width).map fun j => lapAt g i j

/-- `cv2.Laplacian(gray, CV_64F).var()`. -/
def laplacian_variance (g : GrayImg) : ℚ := listVar (lapResponses g)

/-- `sharpness_score = min(laplacian_var / 1000, 1.0)`. -/
def sharpness_score (g : GrayImg) : ℚ := min (laplacian_variance g / 1000) 1

/-- `brightness = np.mean(gray) / 255`. -/
def brightness (g : GrayImg) : ℚ := listMean (gridPixels g) / 255

/-- `brightness_score = 1.0 - abs(brightness - 0.5) * 2`. -/
def brightness_score (g : GrayImg) : ℚ := 1 - |brightness g - 1 / 2| * 2

/-- `contrast = gray.std() / 255` (standard deviation of intensity). -/
noncomputable def contrast (g : GrayImg) : ℝ :=
  Real.sqrt (listVar (gridPixels g)) / 255

/-- `contrast_score = min(contrast * 2, 1.0)`. -/
noncomputable def contrast_score (g : GrayImg) : ℝ := min (contrast g * 2) 1

open Classical in
/-- Python's `round` to an integer: round-half-to-even. -/
noncomputable def roundHalfEven (x : ℝ) : ℤ :=
  if x - ⌊x⌋ < 1 / 2 then ⌊x⌋
  else if 1 / 2 < x - ⌊x⌋ then ⌊x⌋ + 1
  else if Even ⌊x⌋ then ⌊x⌋ else ⌊x⌋ + 1

/-- Python's `round(x, 2)` (on the idealized exact value). -/
noncomputable def pyRound2 (x : ℝ) : ℝ := (roundHalfEven (100 * x) : ℝ) / 100

/-- `AIProcessor.calculate_image_quality`: the weighted combination of
the three sub-scores, rounded to two decimals. -/
noncomputable def calculate_image_quality (g : GrayImg) : ℝ :=
  pyRound2 ((sharpness_score g : ℝ) * 0.5 + (brightness_score g : ℝ) * 0.3 +
    contrast_score g * 0.2)

/-! ## The orchestrator (`process_image`) -/

/-- The external capabilities consumed by the pipeline: image decoding,
the two cv2 colour-space conversions, the YOLO detector (already at the
fixed confidence threshold), the OCR enhancement chain, and easyocr's
`readtext`. -/
structure Caps where
  imread : List Nat → Option Img
  toGray : Img → GrayImg
  cvt : Pix → Pix
  yolo : Img → List DetectionResult
  enhance : Img → Img
  ocr : Img → List (List (ℚ × ℚ) × String × ℚ)

/-- `self.vehicle_classes` of the source. -/
def vehicle_classes : List String :=
  ["car", "truck", "bus", "motorcycle", "bicycle", "auto-rickshaw", "van", "suv", "taxi"]

/-- `self.traffic_sign_classes` of the source. -/
def traffic_sign_classes : List String :=
  ["stop sign", "traffic light", "speed limit", "no entry", "one way",
   "parking", "pedestrian crossing"]

/-- `AIProcessor.detect_license_plates`: per vehicle, crop, enhance,
recognize, keep plate-shaped texts with confidence above 0.5, clean the
text and remap coordinates.  (An empty recognized quadrilateral — which
easyocr never produces — is skipped, where Python would skip the rest
of that vehicle via its per-vehicle `try/except`.) -/
def detect_license_plates (C : Caps) (image : Img)
    (vehicles : List DetectionResult) : List LicensePlateResult :=
  vehicles.flatMap fun vehicle =>
    let x1 := pyInt vehicle.bbox.x1
    let y1 := pyInt vehicle.bbox.y1
    let x2 := pyInt vehicle.bbox.x2
    let y2 := pyInt vehicle.bbox.y2
    let vehicle_region := cropRegion image y1 y2 x1 x2
    let enhanced := C.enhance vehicle_region
    (C.ocr enhanced).filterMap fun triple =>
      match triple with
      | (bbox, text, confidence) =>
        if is_license_plate_text text && decide ((1 : ℚ) / 2 < confidence) then
          match relative_to_absolute_bbox bbox (x1 : ℚ) (y1 : ℚ) with
          | some abs_bbox =>
              some ⟨clean_license_plate_text text, confidence, abs_bbox⟩
          | none => none
        else none

/-- `AIAnalysisResult` dataclass of the source. -/
structure AIAnalysisResult where
  license_plates : List LicensePlateResult
  vehicles : List DetectionResult
  persons : List DetectionResult
  traffic_signs : List DetectionResult
  violations_detected : List String
  image_quality_score : ℝ
  processing_time : ℚ
  timestamp : String

/-- `AIProcessor.process_image`: decode (`none` models the fatal decode
error), score quality, detect, partition by the source's
`if/elif/elif` chain, extract plates, run the rule engine, and
assemble the result.  `timing` carries the measured wall-clock duration
and completion timestamp, which are inputs of the environment. -/
noncomputable def process_image (C : Caps) (image_bytes : List Nat)
    (timing : ℚ × String) : Option AIAnalysisResult :=
  match C.imread image_bytes with
  | none => none
  | some image =>
    let quality_score := calculate_image_quality (C.toGray image)
    let detections := C.yolo image
    let vehicles := detections.filter fun d =>
      vehicle_classes.contains d.class_name
    let persons := detections.filter fun d =>
      !vehicle_classes.contains d.class_name && d.class_name == "person"
    let traffic_signs := detections.filter fun d =>
      !vehicle_classes.contains d.class_name && d.class_name != "person" &&
        traffic_sign_classes.contains d.class_name
    let license_plates := detect_license_plates C image vehicles
    let violations_detected :=
      detect_violations (violation_patterns C.cvt) image vehicles persons traffic_signs
    some ⟨license_plates, vehicles, persons, traffic_signs, violations_detected,
      quality_score, timing.1, timing.2⟩

/-! ## Concrete test data -/

/-- A motorcycle detection whose bbox spans the 20×4 test images. -/
def motoDet : DetectionResult := ⟨"motorcycle", 9 / 10, ⟨0, 0, 20, 4⟩⟩

/-- A person detection with the same bbox (centre-to-centre distance 0). -/
def personDet : DetectionResult := ⟨"person", 9 / 10, ⟨0, 0, 20, 4⟩⟩

/-- A pixel inside the black helmet mask. -/
def pixMasked : Pix := ⟨0, 0, 0⟩

/-- A pixel outside all five helmet masks. -/
def pixUnmasked : Pix := ⟨200, 40, 100⟩

/-- A row of 20 unmasked pixels. -/
def rowPlain : List Pix := List.replicate 20 pixUnmasked

/-- 20×4 image whose head row has 7/20 = 0.35 helmet-mask coverage. -/
def imgCov35 : Img :=
  [List.replicate 7 pixMasked ++ List.replicate 13 pixUnmasked, rowPlain, rowPlain, rowPlain]

/-- 20×4 image whose head row has 2/20 = 0.10 helmet-mask coverage. -/
def imgCov10 : Img :=
  [List.replicate 2 pixMasked ++ List.replicate 18 pixUnmasked, rowPlain, rowPlain, rowPlain]

/-- A detection with a degenerate (zero-area) bbox. -/
def degenerateDet : DetectionResult := ⟨"person", 9 / 10, ⟨0, 0, 0, 0⟩⟩

/-- A motorcycle at the degenerate detection's position. -/
def motoDet0 : DetectionResult := ⟨"motorcycle", 9 / 10, ⟨0, 0, 0, 0⟩⟩

/-- A detector that always raises (models a crashing detector). -/
def crashingDetector : Detector := fun _ _ _ _ => .error "boom"

/-- Registry fragment before a crashing detector (used as witness data). -/
def preReg : List (String × Detector) :=
  [("wrong_way", fun i v p s => .ok (detect_wrong_way_driving i v p s))]

/-- Registry fragment after a crashing detector (used as witness data). -/
def postReg : List (String × Detector) :=
  [("triple_riding", fun i v p s => .ok (detect_triple_riding i v p s))]

/-- Trivial external capabilities (witness data). -/
def capsTriv : Caps :=
  ⟨fun _ => some [], fun _ => ⟨1, 1, fun _ _ => 0⟩, id, fun _ => [], id, fun _ => []⟩

/-- The analysis result `capsTriv` produces on empty bytes (witness
data; the fields are spelled exactly as `process_image` computes them). -/
noncomputable def resTriv : AIAnalysisResult :=
  ⟨detect_license_plates capsTriv [] [], [], [], [],
   detect_violations (violation_patterns capsTriv.cvt) [] [] [] [],
   calculate_image_quality (capsTriv.toGray []), 0, "t"⟩

/-- A 1×1 mid-gray image (witness data). -/
def grayTriv : GrayImg := ⟨1, 1, fun _ _ => 128⟩

/-! # Theorems

General-purpose helper lemmas, followed by one theorem per claim. -/

/-! ## Helper lemmas -/

theorem foldl_min_le_start (xs : List ℚ) (x : ℚ) : xs.foldl min x ≤ x := by
  induction xs generalizing x with
  | nil => simp
  | cons y ys ih => exact le_trans (ih (min x y)) (min_le_left x y)

theorem foldl_min_le_mem (xs : List ℚ) (x : ℚ) : ∀ y ∈ xs, xs.foldl min x ≤ y := by
  induction xs generalizing x with
  | nil => simp
  | cons z zs ih =>
    intro y hy
    rcases List.mem_cons.mp hy with rfl | hy'
    · exact le_trans (foldl_min_le_start zs (min x y)) (min_le_right x y)
    · exact ih (min x z) y hy'

theorem foldl_min_mem (xs : List ℚ) (x : ℚ) : xs.foldl min x ∈ x :: xs := by
  induction xs generalizing x with
  | nil => simp
  | cons z zs ih =>
    rw [List.foldl_cons]
    rcases List.mem_cons.mp (ih (min x z)) with h' | h'
    · rw [h']
      rcases min_choice x z with hc | hc
      · rw [hc]; exact List.mem_cons_self _ _
      · rw [hc]; exact List.mem_cons_of_mem _ (List.mem_cons_self _ _)
    · exact List.mem_cons_of_mem _ (List.mem_cons_of_mem _ h')

theorem foldl_max_start_le (xs : List ℚ) (x : ℚ) : x ≤ xs.foldl max x := by
  induction xs generalizing x with
  | nil => simp
  | cons y ys ih => exact le_trans (le_max_left x y) (ih (max x y))

theorem foldl_max_mem_le (xs : List ℚ) (x : ℚ) : ∀ y ∈ xs, y ≤ xs.foldl max x := by
  induction xs generalizing x with
  | nil => simp
  | cons z zs ih =>
    intro y hy
    rcases List.mem_cons.mp hy with rfl | hy'
    · exact le_trans (le_max_right x y) (foldl_max_start_le zs (max x y))
    · exact ih (max x z) y hy'

theorem foldl_max_mem (xs : List ℚ) (x : ℚ) : xs.foldl max x ∈ x :: xs := by
  induction xs generalizing x with
  | nil => simp
  | cons z zs ih =>
    rw [List.foldl_cons]
    rcases List.mem_cons.mp (ih (max x z)) with h' | h'
    · rw [h']
      rcases max_choice x z with hc | hc
      · rw [hc]; exact List.mem_cons_self _ _
      · rw [hc]; exact List.mem_cons_of_mem _ (List.mem_cons_self _ _)
    · exact List.mem_cons_of_mem _ (List.mem_cons_of_mem _ h')

/-- The helmet test fails exactly when the mask coverage is at most 0.3
(on an empty region the rational coverage is `0/0 = 0`, and the
explicit size guard of the source also reports "no helmet"). -/
theorem analyze_helmet_presence_eq_false_iff (cvt : Pix → Pix) (r : Img) :
    analyze_helmet_presence cvt r = false ↔ helmet_coverage cvt r ≤ 3 / 10 := by
  unfold analyze_helmet_presence
  split
  · rename_i h
    simp only [true_iff]
    unfold helmet_coverage
    simp only [h, Nat.cast_zero, div_zero]
    norm_num
  · simp [not_lt]

/-- A slice whose resolved stop index is at most its nonneg start index
is empty. -/
theorem pySlice_eq_nil {α : Type} (l : List α) (a b : Int)
    (h0 : 0 ≤ b) (hba : b ≤ a) : pySlice l a b = [] := by
  unfold pySlice sliceIdx
  rw [if_neg (by omega), if_neg (by omega)]
  apply List.drop_eq_nil_of_le
  rw [List.length_take]
  omega

/-- Every reported kind comes from the registry's key list. -/
theorem detect_violations_mem_keys (ps : List (String × Detector)) (image : Img)
    (vehicles persons signs : List DetectionResult) (x : String)
    (hx : x ∈ detect_violations ps image vehicles persons signs) :
    x ∈ ps.map Prod.fst := by
  unfold detect_violations at hx
  obtain ⟨kv, hkv, hres⟩ := List.mem_filterMap.mp hx
  rcases hM : kv.2 image vehicles persons signs with e' | b
  · rw [hM] at hres; simp at hres
  · rw [hM] at hres
    cases b
    · simp at hres
    · simp only [Option.some.injEq] at hres
      exact hres ▸ List.mem_map_of_mem Prod.fst hkv

/-- The reported kinds are a sublist of the registry's key list. -/
theorem detect_violations_sublist_keys (ps : List (String × Detector)) (image : Img)
    (vehicles persons signs : List DetectionResult) :
    List.Sublist (detect_violations ps image vehicles persons signs) (ps.map Prod.fst) := by
  induction ps with
  | nil => simp [detect_violations]
  | cons kv rest ih =>
    unfold detect_violations at ih ⊢
    rw [List.map_cons, List.filterMap_cons]
    rcases hM : kv.2 image vehicles persons signs with e' | b
    · simp only [hM]
      exact ih.cons _
    · cases b
      · simp only [hM]
        exact ih.cons _
      · simp only [hM]
        exact ih.cons₂ _

/-- The invariant of the concrete registry's detect pass: no duplicate
kinds, and every kind is one of the eight registered names. -/
theorem registry_detect_inv (cvt : Pix → Pix) (image : Img)
    (vehicles persons signs : List DetectionResult) :
    (detect_violations (violation_patterns cvt) image vehicles persons signs).Nodup ∧
    ∀ x ∈ detect_violations (violation_patterns cvt) image vehicles persons signs,
      x ∈ ["helmet_violation", "triple_riding", "wrong_way", "mobile_usage",
           "seatbelt_violation", "signal_jump", "speeding", "wrong_parking"] := by
  have hsub := detect_violations_sublist_keys (violation_patterns cvt)
    image vehicles persons signs
  have hkeys : (violation_patterns cvt).map Prod.fst =
      ["wrong_way", "helmet_violation", "triple_riding", "mobile_usage",
       "seatbelt_violation", "signal_jump", "speeding", "wrong_parking"] := rfl
  rw [hkeys] at hsub
  constructor
  · exact (by decide :
      (["wrong_way", "helmet_violation", "triple_riding", "mobile_usage",
        "seatbelt_violation", "signal_jump", "speeding", "wrong_parking"] :
          List String).Nodup).sublist hsub
  · intro x hx
    have hx' := hsub.subset hx
    simp only [List.mem_cons, List.not_mem_nil, or_false] at hx' ⊢
    tauto

/-! ## Claim theorems -/

/-- C1: if one registered detector raises during the rule engine's
detect pass, its kind is not reported, every other registered detector
still runs with its result unchanged, and `detect_violations` — which
is a total function — does not raise. -/
theorem detect_violations_isolates_failures
    (pre post : List (String × Detector)) (k : String) (d : Detector)
    (image : Img) (vehicles persons signs : List DetectionResult) (e : String)
    (hd : d image vehicles persons signs = .error e)
    (hk : k ∉ (pre ++ post).map Prod.fst) :
    detect_violations (pre ++ (k, d) :: post) image vehicles persons signs =
      detect_violations (pre ++ post) image vehicles persons signs ∧
    k ∉ detect_violations (pre ++ (k, d) :: post) image vehicles persons signs := by
  have heq : detect_violations (pre ++ (k, d) :: post) image vehicles persons signs =
      detect_violations (pre ++ post) image vehicles persons signs := by
    unfold detect_violations
    rw [List.filterMap_append, List.filterMap_append, List.filterMap_cons]
    simp only [hd]
  refine ⟨heq, ?_⟩
  rw [heq]
  intro hmem
  exact hk (detect_violations_mem_keys (pre ++ post) image vehicles persons signs k hmem)

/-- C2: the helmet detector flags exactly when some motorcycle-class
vehicle has a person within 50 px (centre-to-centre) whose head-region
helmet-colour coverage is at most 0.3; coverage 0.35 gives no
violation, coverage 0.10 gives one. -/
theorem detect_helmet_violation_spec :
    (∀ (cvt : Pix → Pix) (image : Img) (vehicles persons signs : List DetectionResult),
      detect_helmet_violation cvt image vehicles persons signs = true ↔
        ∃ m ∈ vehicles, isMotorcycleClass m = true ∧
          ∃ p ∈ persons,
            distSq (get_bbox_center m.bbox) (get_bbox_center p.bbox) ≤ 50 ^ 2 ∧
            helmet_coverage cvt (head_region image p.bbox) ≤ 3 / 10) ∧
    helmet_coverage id (head_region imgCov35 personDet.bbox) = 35 / 100 ∧
    detect_helmet_violation id imgCov35 [motoDet] [personDet] [] = false ∧
    helmet_coverage id (head_region imgCov10 personDet.bbox) = 10 / 100 ∧
    detect_helmet_violation id imgCov10 [motoDet] [personDet] [] = true := by
  refine ⟨?_, by decide!, by decide!, by decide!, by decide!⟩
  intro cvt image vehicles persons signs
  unfold detect_helmet_violation find_nearby_objects
  simp only [List.any_eq_true, List.mem_filter, Bool.not_eq_true',
    analyze_helmet_presence_eq_false_iff, decide_eq_true_eq]
  constructor
  · rintro ⟨m, ⟨hm, hmoto⟩, p, ⟨hp, hdist⟩, hcov⟩
    exact ⟨m, hm, hmoto, p, hp, hdist, hcov⟩
  · rintro ⟨m, hm, hmoto, p, hp, hdist, hcov⟩
    exact ⟨m, ⟨hm, hmoto⟩, p, ⟨hp, hdist⟩, hcov⟩

/-- C3 (amended): the plate filter accepts iff the cleaned text has
length at least 6 and matches one of the three grammars; "MH12AB1234"
is accepted, "AB1" is rejected, and "DL 8C AF 1234" — cleaned to
"DL8CAF1234" — is rejected (its single district digit fits none of the
three grammars). -/
theorem is_license_plate_text_spec :
    (∀ text, is_license_plate_text text = true ↔
      (6 ≤ (cleanText text).length ∧
        (matchSegs plate_pattern_standard (cleanText text).data = true ∨
         matchSegs plate_pattern_short (cleanText text).data = true ∨
         matchSegs plate_pattern_flexible (cleanText text).data = true))) ∧
    is_license_plate_text "MH12AB1234" = true ∧
    is_license_plate_text "AB1" = false ∧
    cleanText "DL 8C AF 1234" = "DL8CAF1234" ∧
    is_license_plate_text "DL 8C AF 1234" = false := by
  refine ⟨?_, by decide, by decide, by decide, by decide⟩
  intro text
  unfold is_license_plate_text
  simp only [Bool.and_eq_true, List.any_eq_true, List.mem_cons, List.not_mem_nil,
    or_false, decide_eq_true_eq]
  constructor
  · rintro ⟨⟨p, hp, hmatch⟩, hlen⟩
    refine ⟨hlen, ?_⟩
    rcases hp with rfl | rfl | rfl
    · exact Or.inl hmatch
    · exact Or.inr (Or.inl hmatch)
    · exact Or.inr (Or.inr hmatch)
  · rintro ⟨hlen, hmatch⟩
    refine ⟨?_, hlen⟩
    rcases hmatch with h | h | h
    · exact ⟨plate_pattern_standard, Or.inl rfl, h⟩
    · exact ⟨plate_pattern_short, Or.inr (Or.inl rfl), h⟩
    · exact ⟨plate_pattern_flexible, Or.inr (Or.inr rfl), h⟩

/-- C3 counterexample: the claim's example "DL 8C AF 1234" is in fact
rejected by the plate filter (the claim asserts it is accepted). -/
theorem dl_plate_rejected :
    cleanText "DL 8C AF 1234" = "DL8CAF1234" ∧
    is_license_plate_text "DL 8C AF 1234" = false ∧
    is_license_plate_text "DL8CAF1234" = false := by
  refine ⟨by decide, by decide, by decide⟩

/-- C4: canonicalization strips and uppercases; with at least 10
characters it returns the 2-2-2-4 regrouping (10 characters), else the
cleaned text unchanged; length-11/12 flexible-grammar inputs still end
up with 10 characters. -/
theorem clean_license_plate_text_spec :
    (∀ text, 10 ≤ (cleanText text).length →
      clean_license_plate_text text =
        ⟨(cleanText text).data.take 2 ++ (((cleanText text).data.drop 2).take 2 ++
          (((cleanText text).data.drop 4).take 2 ++ ((cleanText text).data.drop 6).take 4))⟩ ∧
      (clean_license_plate_text text).length = 10) ∧
    (∀ text, (cleanText text).length < 10 →
      clean_license_plate_text text = cleanText text) ∧
    (∀ text, ((cleanText text).length = 11 ∨ (cleanText text).length = 12) →
      matchSegs plate_pattern_flexible (cleanText text).data = true →
      (clean_license_plate_text text).length = 10) := by
  have hlen : ∀ text, 10 ≤ (cleanText text).length →
      (clean_license_plate_text text).length = 10 := by
    intro text h
    unfold clean_license_plate_text
    rw [if_pos h]
    have h' : 10 ≤ (cleanText text).data.length := h
    simp only [String.length, List.length_append, List.length_take, List.length_drop]
    omega
  refine ⟨?_, ?_, ?_⟩
  · intro text h
    refine ⟨?_, hlen text h⟩
    unfold clean_license_plate_text
    rw [if_pos h]
  · intro text h
    unfold clean_license_plate_text
    rw [if_neg (by omega)]
  · intro text h _
    exact hlen text (by omega)

/-- C4 witness: a cleaned length-11 input accepted by the flexible
grammar canonicalizes to a 10-character result. -/
theorem clean_license_plate_text_spec_witness :
    (clean_license_plate_text "AB1234CD123").length = 10 :=
  clean_license_plate_text_spec.2.2 "AB1234CD123" (Or.inl (by decide)) (by decide)

/-- C5: the triple-riding detector flags exactly when some
motorcycle-class vehicle has strictly more than 2 persons within 30 px
of its centre; with exactly 2 it does not flag. -/
theorem detect_triple_riding_spec :
    (∀ (image : Img) (vehicles persons signs : List DetectionResult),
      detect_triple_riding image vehicles persons signs = true ↔
        ∃ m ∈ vehicles, isMotorcycleClass m = true ∧
          2 < (persons.countP fun p =>
            decide (distSq (get_bbox_center m.bbox) (get_bbox_center p.bbox) ≤ 30 ^ 2))) ∧
    detect_triple_riding [] [motoDet] [personDet, personDet, personDet] [] = true ∧
    detect_triple_riding [] [motoDet] [personDet, personDet] [] = false := by
  refine ⟨?_, by decide!, by decide!⟩
  intro image vehicles persons signs
  unfold detect_triple_riding find_nearby_objects
  simp only [List.any_eq_true, List.mem_filter, decide_eq_true_eq,
    List.countP_eq_length_filter]
  constructor
  · rintro ⟨m, ⟨hm, hmoto⟩, hcount⟩
    exact ⟨m, hm, hmoto, hcount⟩
  · rintro ⟨m, hm, hmoto, hcount⟩
    exact ⟨m, ⟨hm, hmoto⟩, hcount⟩

/-- C6: for a non-empty quadrilateral the remap returns
`(min x + ox, min y + oy, max x + ox, max y + oy)` — stated as: the
result's four entries bound every shifted point and are attained — and
the spec's concrete example evaluates to `(10,20,15,25)`. -/
theorem relative_to_absolute_bbox_spec :
    (∀ (pts : List (ℚ × ℚ)) (ox oy : ℚ), pts ≠ [] →
      ∃ a b c d, relative_to_absolute_bbox pts ox oy = some [a, b, c, d] ∧
        (∀ p ∈ pts, a ≤ p.1 + ox ∧ b ≤ p.2 + oy ∧ p.1 + ox ≤ c ∧ p.2 + oy ≤ d) ∧
        (∃ p ∈ pts, p.1 + ox = a) ∧ (∃ p ∈ pts, p.2 + oy = b) ∧
        (∃ p ∈ pts, p.1 + ox = c) ∧ (∃ p ∈ pts, p.2 + oy = d)) ∧
    relative_to_absolute_bbox [(0, 0), (5, 0), (5, 5), (0, 5)] 10 20 =
      some [10, 20, 15, 25] := by
  refine ⟨?_, by decide!⟩
  intro pts ox oy hne
  obtain ⟨p₀, rest, rfl⟩ := List.exists_cons_of_ne_nil hne
  refine ⟨(rest.map Prod.fst).foldl min p₀.1 + ox,
          (rest.map Prod.snd).foldl min p₀.2 + oy,
          (rest.map Prod.fst).foldl max p₀.1 + ox,
          (rest.map Prod.snd).foldl max p₀.2 + oy, rfl, ?_, ?_, ?_, ?_, ?_⟩
  · intro p hp
    have hx : p.1 ∈ p₀.1 :: rest.map Prod.fst := by
      rcases List.mem_cons.mp hp with rfl | h
      · exact List.mem_cons_self _ _
      · exact List.mem_cons_of_mem _ (List.mem_map_of_mem Prod.fst h)
    have hy : p.2 ∈ p₀.2 :: rest.map Prod.snd := by
      rcases List.mem_cons.mp hp with rfl | h
      · exact List.mem_cons_self _ _
      · exact List.mem_cons_of_mem _ (List.mem_map_of_mem Prod.snd h)
    have h1 : (rest.map Prod.fst).foldl min p₀.1 ≤ p.1 := by
      rcases List.mem_cons.mp hx with h | h
      · exact h ▸ foldl_min_le_start _ _
      · exact foldl_min_le_mem _ _ _ h
    have h2 : (rest.map Prod.snd).foldl min p₀.2 ≤ p.2 := by
      rcases List.mem_cons.mp hy with h | h
      · exact h ▸ foldl_min_le_start _ _
      · exact foldl_min_le_mem _ _ _ h
    have h3 : p.1 ≤ (rest.map Prod.fst).foldl max p₀.1 := by
      rcases List.mem_cons.mp hx with h | h
      · exact h ▸ foldl_max_start_le _ _
      · exact foldl_max_mem_le _ _ _ h
    have h4 : p.2 ≤ (rest.map Prod.snd).foldl max p₀.2 := by
      rcases List.mem_cons.mp hy with h | h
      · exact h ▸ foldl_max_start_le _ _
      · exact foldl_max_mem_le _ _ _ h
    exact ⟨by linarith, by linarith, by linarith, by linarith⟩
  · rcases List.mem_cons.mp (foldl_min_mem (rest.map Prod.fst) p₀.1) with h | h
    · exact ⟨p₀, List.mem_cons_self _ _, by rw [h]⟩
    · obtain ⟨p, hp, hpe⟩ := List.mem_map.mp h
      exact ⟨p, List.mem_cons_of_mem _ hp, by rw [hpe]⟩
  · rcases List.mem_cons.mp (foldl_min_mem (rest.map Prod.snd) p₀.2) with h | h
    · exact ⟨p₀, List.mem_cons_self _ _, by rw [h]⟩
    · obtain ⟨p, hp, hpe⟩ := List.mem_map.mp h
      exact ⟨p, List.mem_cons_of_mem _ hp, by rw [hpe]⟩
  · rcases List.mem_cons.mp (foldl_max_mem (rest.map Prod.fst) p₀.1) with h | h
    · exact ⟨p₀, List.mem_cons_self _ _, by rw [h]⟩
    · obtain ⟨p, hp, hpe⟩ := List.mem_map.mp h
      exact ⟨p, List.mem_cons_of_mem _ hp, by rw [hpe]⟩
  · rcases List.mem_cons.mp (foldl_max_mem (rest.map Prod.snd) p₀.2) with h | h
    · exact ⟨p₀, List.mem_cons_self _ _, by rw [h]⟩
    · obtain ⟨p, hp, hpe⟩ := List.mem_map.mp h
      exact ⟨p, List.mem_cons_of_mem _ hp, by rw [hpe]⟩

/-- C6 witness: the remap's characterization at the spec's example. -/
theorem relative_to_absolute_bbox_spec_witness :
    ∃ a b c d, relative_to_absolute_bbox [((0 : ℚ), (0 : ℚ)), (5, 0), (5, 5), (0, 5)]
        10 20 = some [a, b, c, d] ∧
      (∀ p ∈ [((0 : ℚ), (0 : ℚ)), (5, 0), (5, 5), (0, 5)],
        a ≤ p.1 + 10 ∧ b ≤ p.2 + 20 ∧ p.1 + 10 ≤ c ∧ p.2 + 20 ≤ d) ∧
      (∃ p ∈ [((0 : ℚ), (0 : ℚ)), (5, 0), (5, 5), (0, 5)], p.1 + 10 = a) ∧
      (∃ p ∈ [((0 : ℚ), (0 : ℚ)), (5, 0), (5, 5), (0, 5)], p.2 + 20 = b) ∧
      (∃ p ∈ [((0 : ℚ), (0 : ℚ)), (5, 0), (5, 5), (0, 5)], p.1 + 10 = c) ∧
      (∃ p ∈ [((0 : ℚ), (0 : ℚ)), (5, 0), (5, 5), (0, 5)], p.2 + 20 = d) :=
  relative_to_absolute_bbox_spec.1 [(0, 0), (5, 0), (5, 5), (0, 5)] 10 20 (by decide)

/-- C1 witness: with the helmet detector crashing between two live
registry entries, the detect pass equals the pass without it and does
not report the crashed kind. -/
theorem detect_violations_isolates_failures_witness :
    detect_violations (preReg ++ ("helmet_violation", crashingDetector) :: postReg)
        [] [motoDet] [personDet, personDet, personDet] [] =
      detect_violations (preReg ++ postReg)
        [] [motoDet] [personDet, personDet, personDet] [] ∧
    "helmet_violation" ∉
      detect_violations (preReg ++ ("helmet_violation", crashingDetector) :: postReg)
        [] [motoDet] [personDet, personDet, personDet] [] :=
  detect_violations_isolates_failures preReg postReg "helmet_violation" crashingDetector
    [] [motoDet] [personDet, personDet, personDet] [] "boom" rfl (by decide)

/-- C8: the violations collection produced by the concrete registry has
no duplicates and only registry names — both for a bare detect pass and
for the violations field of every completed analysis. -/
theorem violations_registry_invariant :
    (∀ (cvt : Pix → Pix) (image : Img) (vehicles persons signs : List DetectionResult),
      (detect_violations (violation_patterns cvt) image vehicles persons signs).Nodup ∧
      ∀ x ∈ detect_violations (violation_patterns cvt) image vehicles persons signs,
        x ∈ ["helmet_violation", "triple_riding", "wrong_way", "mobile_usage",
             "seatbelt_violation", "signal_jump", "speeding", "wrong_parking"]) ∧
    ∀ (C : Caps) (image_bytes : List Nat) (timing : ℚ × String) (r : AIAnalysisResult),
      process_image C image_bytes timing = some r →
        r.violations_detected.Nodup ∧
        ∀ x ∈ r.violations_detected,
          x ∈ ["helmet_violation", "triple_riding", "wrong_way", "mobile_usage",
               "seatbelt_violation", "signal_jump", "speeding", "wrong_parking"] := by
  refine ⟨fun cvt image vehicles persons signs =>
    registry_detect_inv cvt image vehicles persons signs, ?_⟩
  intro C image_bytes timing r hr
  unfold process_image at hr
  rcases hIm : C.imread image_bytes with _ | image
  · rw [hIm] at hr; simp at hr
  · rw [hIm] at hr
    simp only [Option.some.injEq] at hr
    subst hr
    exact registry_detect_inv C.cvt image _ _ _

/-- C8 witness: the invariant instantiated on a completed analysis. -/
theorem violations_registry_invariant_witness :
    resTriv.violations_detected.Nodup ∧
    ∀ x ∈ resTriv.violations_detected,
      x ∈ ["helmet_violation", "triple_riding", "wrong_way", "mobile_usage",
           "seatbelt_violation", "signal_jump", "speeding", "wrong_parking"] :=
  violations_registry_invariant.2 capsTriv [] (0, "t") resTriv rfl

/-- C9: with fixed external capabilities and identical image bytes, two
runs of the analysis agree on vehicles, persons, signs, plates and
violations, whatever their timing inputs (timestamps/durations may
differ). -/
theorem process_image_deterministic (C : Caps) (image_bytes : List Nat)
    (t t' : ℚ × String) :
    (process_image C image_bytes t).map AIAnalysisResult.vehicles =
      (process_image C image_bytes t').map AIAnalysisResult.vehicles ∧
    (process_image C image_bytes t).map AIAnalysisResult.persons =
      (process_image C image_bytes t').map AIAnalysisResult.persons ∧
    (process_image C image_bytes t).map AIAnalysisResult.traffic_signs =
      (process_image C image_bytes t').map AIAnalysisResult.traffic_signs ∧
    (process_image C image_bytes t).map AIAnalysisResult.license_plates =
      (process_image C image_bytes t').map AIAnalysisResult.license_plates ∧
    (process_image C image_bytes t).map AIAnalysisResult.violations_detected =
      (process_image C image_bytes t').map AIAnalysisResult.violations_detected := by
  unfold process_image
  rcases hIm : C.imread image_bytes with _ | image <;> simp

/-- C10: the helmet test is total — an empty head region hits the
explicit size guard (no division by zero) and reports "helmet absent";
a nearby person whose degenerate bbox yields an empty crop therefore
triggers the helmet violation. -/
theorem analyze_helmet_empty_guard :
    (∀ (cvt : Pix → Pix), analyze_helmet_presence cvt [] = false) ∧
    (∀ (img : Img) (b : Bbox), 0 ≤ b.y2 → b.y2 ≤ b.y1 → person_region img b = []) ∧
    (∀ (cvt : Pix → Pix) (image : Img) (vehicles persons signs : List DetectionResult)
       (m p : DetectionResult), m ∈ vehicles → isMotorcycleClass m = true →
       p ∈ persons →
       distSq (get_bbox_center m.bbox) (get_bbox_center p.bbox) ≤ 50 ^ 2 →
       (head_region image p.bbox).flatten = [] →
       detect_helmet_violation cvt image vehicles persons signs = true) := by
  refine ⟨fun cvt => rfl, ?_, ?_⟩
  · intro img b h0 h1
    unfold person_region cropRegion
    have hy2 : 0 ≤ pyInt b.y2 := by
      unfold pyInt
      rw [if_pos h0]
      exact Int.floor_nonneg.mpr h0
    have hy12 : pyInt b.y2 ≤ pyInt b.y1 := by
      unfold pyInt
      rw [if_pos h0, if_pos (le_trans h0 h1)]
      exact Int.floor_le_floor h1
    rw [pySlice_eq_nil img (pyInt b.y1) (pyInt b.y2) hy2 hy12]
    rfl
  · intro cvt image vehicles persons signs m p hm hmoto hp hdist hhead
    unfold detect_helmet_violation
    rw [List.any_eq_true]
    refine ⟨m, List.mem_filter.mpr ⟨hm, hmoto⟩, ?_⟩
    rw [List.any_eq_true]
    refine ⟨p, ?_, ?_⟩
    · unfold find_nearby_objects
      exact List.mem_filter.mpr ⟨hp, by simpa using hdist⟩
    · rw [Bool.not_eq_true']
      unfold analyze_helmet_presence
      rw [hhead]
      rfl

/-- C10 witness: a degenerate-bbox person next to a motorcycle triggers
the helmet violation on an empty image. -/
theorem analyze_helmet_empty_guard_witness :
    detect_helmet_violation id [] [motoDet0] [degenerateDet] [] = true :=
  analyze_helmet_empty_guard.2.2 id [] [motoDet0] [degenerateDet] []
    motoDet0 degenerateDet (by decide!) (by decide!) (by decide!) (by decide!) (by decide!)

/-! ## Image-quality lemmas -/

theorem listVar_nonneg (l : List ℚ) : 0 ≤ listVar l := by
  unfold listVar
  apply div_nonneg _ (Nat.cast_nonneg _)
  apply List.sum_nonneg
  intro x hx
  obtain ⟨y, hy, rfl⟩ := List.mem_map.mp hx
  positivity

theorem listVar_eq_zero {l : List ℚ} (h : ∀ x ∈ l, x = 0) : listVar l = 0 := by
  have hm : listMean l = 0 := by
    unfold listMean
    rw [List.sum_eq_zero h, zero_div]
  unfold listVar
  have hs : (l.map fun x => (x - listMean l) ^ 2).sum = 0 := by
    apply List.sum_eq_zero
    intro y hy
    obtain ⟨x, hx, rfl⟩ := List.mem_map.mp hy
    rw [h x hx, hm]
    ring
  rw [hs, zero_div]

theorem listMean_nonneg {l : List ℚ} (h : ∀ x ∈ l, 0 ≤ x) : 0 ≤ listMean l :=
  div_nonneg (List.sum_nonneg h) (Nat.cast_nonneg _)

theorem listMean_le_of_le {l : List ℚ} {c : ℚ} (hc : 0 ≤ c) (h : ∀ x ∈ l, x ≤ c) :
    listMean l ≤ c := by
  unfold listMean
  rcases Nat.eq_zero_or_pos l.length with h0 | h0
  · have : l = [] := List.length_eq_zero.mp h0
    subst this
    simpa using hc
  · rw [div_le_iff₀ (by exact_mod_cast h0)]
    calc l.sum ≤ l.length • c := List.sum_le_card_nsmul l c h
    _ = c * l.length := by rw [nsmul_eq_mul]; ring

theorem mem_gridPixels {g : GrayImg} {x : ℚ} (hx : x ∈ gridPixels g) :
    ∃ i j, i < g.height ∧ j < g.width ∧ x = g.px i j := by
  unfold gridPixels at hx
  obtain ⟨i, hi, hx⟩ := List.mem_flatMap.mp hx
  obtain ⟨j, hj, rfl⟩ := List.mem_map.mp hx
  exact ⟨i, j, List.mem_range.mp hi, List.mem_range.mp hj, rfl⟩

theorem reflect101_lt {n : Nat} (hn : 1 ≤ n) (i : Int) (h1 : -1 ≤ i) (h2 : i ≤ n) :
    reflect101 n i < n := by
  unfold reflect101
  split
  · omega
  · split
    · omega
    · split <;> omega

theorem lapResponses_zero {g : GrayImg} (hh : 1 ≤ g.height) (hw : 1 ≤ g.width)
    (hc : ∀ i j, i < g.height → j < g.width → g.px i j = g.px 0 0) :
    ∀ x ∈ lapResponses g, x = 0 := by
  intro x hx
  unfold lapResponses at hx
  obtain ⟨i, hi, hx⟩ := List.mem_flatMap.mp hx
  obtain ⟨j, hj, rfl⟩ := List.mem_map.mp hx
  have hi' := List.mem_range.mp hi
  have hj' := List.mem_range.mp hj
  unfold lapAt
  rw [hc (reflect101 g.height ((i : Int) - 1)) j
        (reflect101_lt hh _ (by omega) (by omega)) hj',
      hc (reflect101 g.height ((i : Int) + 1)) j
        (reflect101_lt hh _ (by omega) (by omega)) hj',
      hc i (reflect101 g.width ((j : Int) - 1)) hi'
        (reflect101_lt hw _ (by omega) (by omega)),
      hc i (reflect101 g.width ((j : Int) + 1)) hi'
        (reflect101_lt hw _ (by omega) (by omega)),
      hc i j hi' hj']
  ring

theorem roundHalfEven_nonneg {x : ℝ} (hx : 0 ≤ x) : 0 ≤ roundHalfEven x := by
  have h0 : (0 : ℤ) ≤ ⌊x⌋ := Int.floor_nonneg.mpr hx
  unfold roundHalfEven
  split
  · exact h0
  · split
    · omega
    · split <;> omega

theorem roundHalfEven_le {x : ℝ} {n : ℤ} (hx : x ≤ n) : roundHalfEven x ≤ n := by
  have hfl : ⌊x⌋ ≤ n := by
    have h := Int.floor_le_floor hx
    rwa [Int.floor_intCast] at h
  unfold roundHalfEven
  split
  · exact hfl
  · rename_i h1
    push_neg at h1
    have hlt : ⌊x⌋ < n := by
      by_contra hcon
      push_neg at hcon
      have heq : ⌊x⌋ = n := le_antisymm hfl hcon
      have h2 : (n : ℝ) ≤ x := by rw [← heq]; exact Int.floor_le x
      have h3 : x - (⌊x⌋ : ℝ) = 0 := by rw [heq]; linarith
      rw [h3] at h1
      norm_num at h1
    split
    · omega
    · split <;> omega

theorem pyRound2_bounds {x : ℝ} (h0 : 0 ≤ x) (h1 : x ≤ 1) :
    0 ≤ pyRound2 x ∧ pyRound2 x ≤ 1 := by
  unfold pyRound2
  have ha : (0 : ℤ) ≤ roundHalfEven (100 * x) := roundHalfEven_nonneg (by linarith)
  have hbn : roundHalfEven (100 * x) ≤ (100 : ℤ) := roundHalfEven_le (by push_cast; linarith)
  constructor
  · apply div_nonneg _ (by norm_num)
    exact_mod_cast ha
  · rw [div_le_one (by norm_num)]
    exact_mod_cast hbn

/-- C7: the quality score is the rounded weighted combination of the
three sub-scores and always lies in `[0,1]`; on a solid-colour image
the sharpness component is 0. -/
theorem calculate_image_quality_spec (g : GrayImg)
    (hh : 1 ≤ g.height) (hw : 1 ≤ g.width)
    (hb : ∀ i j, i < g.height → j < g.width → 0 ≤ g.px i j ∧ g.px i j ≤ 255) :
    calculate_image_quality g =
      pyRound2 (0.5 * (sharpness_score g : ℝ) + 0.3 * (brightness_score g : ℝ) +
        0.2 * contrast_score g) ∧
    0 ≤ calculate_image_quality g ∧ calculate_image_quality g ≤ 1 ∧
    ((∀ i j, i < g.height → j < g.width → g.px i j = g.px 0 0) →
      sharpness_score g = 0) := by
  have hpix : ∀ x ∈ gridPixels g, 0 ≤ x ∧ x ≤ 255 := by
    intro x hx
    obtain ⟨i, j, hi, hj, rfl⟩ := mem_gridPixels hx
    exact hb i j hi hj
  have hs0 : 0 ≤ sharpness_score g :=
    le_min (div_nonneg (listVar_nonneg _) (by norm_num)) zero_le_one
  have hs1 : sharpness_score g ≤ 1 := min_le_right _ _
  have hm0 : 0 ≤ listMean (gridPixels g) := listMean_nonneg fun x hx => (hpix x hx).1
  have hm255 : listMean (gridPixels g) ≤ 255 :=
    listMean_le_of_le (by norm_num) fun x hx => (hpix x hx).2
  have habs : |brightness g - 1 / 2| ≤ 1 / 2 := by
    unfold brightness
    rw [abs_le]
    constructor
    · have : 0 ≤ listMean (gridPixels g) / 255 := by positivity
      linarith
    · have : listMean (gridPixels g) / 255 ≤ 1 := by
        rw [div_le_one (by norm_num)]
        exact hm255
      linarith
  have hbr0 : 0 ≤ brightness_score g := by
    unfold brightness_score
    have := abs_le.mp habs
    linarith [this.2]
  have hbr1 : brightness_score g ≤ 1 := by
    unfold brightness_score
    have := abs_nonneg (brightness g - 1 / 2)
    linarith
  have hc0 : 0 ≤ contrast_score g := by
    apply le_min _ zero_le_one
    unfold contrast
    positivity
  have hc1 : contrast_score g ≤ 1 := min_le_right _ _
  have hs0R : (0 : ℝ) ≤ (sharpness_score g : ℝ) := by exact_mod_cast hs0
  have hs1R : (sharpness_score g : ℝ) ≤ 1 := by exact_mod_cast hs1
  have hbr0R : (0 : ℝ) ≤ (brightness_score g : ℝ) := by exact_mod_cast hbr0
  have hbr1R : (brightness_score g : ℝ) ≤ 1 := by exact_mod_cast hbr1
  have hx0 : 0 ≤ (sharpness_score g : ℝ) * 0.5 + (brightness_score g : ℝ) * 0.3 +
      contrast_score g * 0.2 := by nlinarith
  have hx1 : (sharpness_score g : ℝ) * 0.5 + (brightness_score g : ℝ) * 0.3 +
      contrast_score g * 0.2 ≤ 1 := by nlinarith
  have hbounds := pyRound2_bounds hx0 hx1
  refine ⟨?_, ?_, ?_, ?_⟩
  · unfold calculate_image_quality
    congr 1
    ring
  · exact hbounds.1
  · exact hbounds.2
  · intro hc
    have hvar : laplacian_variance g = 0 := by
      unfold laplacian_variance
      exact listVar_eq_zero (lapResponses_zero hh hw hc)
    unfold sharpness_score
    rw [hvar, zero_div]
    exact min_eq_left zero_le_one

/-- C7 witness: the specification instantiated at a 1×1 mid-gray
image. -/
theorem calculate_image_quality_spec_witness :
    calculate_image_quality grayTriv =
      pyRound2 (0.5 * (sharpness_score grayTriv : ℝ) +
        0.3 * (brightness_score grayTriv : ℝ) + 0.2 * contrast_score grayTriv) ∧
    0 ≤ calculate_image_quality grayTriv ∧ calculate_image_quality grayTriv ≤ 1 ∧
    ((∀ i j, i < grayTriv.height → j < grayTriv.width →
        grayTriv.px i j = grayTriv.px 0 0) →
      sharpness_score grayTriv = 0) :=
  calculate_image_quality_spec grayTriv (by norm_num [grayTriv]) (by norm_num [grayTriv])
    (fun i j _ _ => ⟨by norm_num [grayTriv], by norm_num [grayTriv]⟩)

end SnapChallan
